import Mathlib

/-!
Verification of the `hmf` transfer-function module (`src/hmf/transfer.py`).

The numeric arrays of the Python code are modelled as lists of rationals.
The real-valued transcendental functions used by numpy/scipy (`np.exp`,
`np.log`, real powers, Simpson integration `integ.simps`, and scipy
spline construction/evaluation) are external consumed interfaces of the
module; they are taken as explicit function parameters of the embedded
definitions so that every definition stays computable and every theorem
quantifies over them, adding only the algebraic facts about them that
the actual real functions satisfy.
-/

namespace Hmf

/-! ## Python error model

Exception kinds produced by the modelled code paths.  The code itself
only ever raises `ValueError`; `unboundLocal` models the Python
`UnboundLocalError` that is raised when a local variable is read before
assignment; `typeError` models the `TypeError` of Python float
conversion on values that are neither numbers nor strings.  `ErrKind`
additionally carries the error categories named by the specification
(its `configurationError` category has no counterpart class in the
code), so that statements can compare the kind of a raised error with
the kind the specification announces. -/

inductive PyErr where
  | valueError (msg : String)
  | typeError (msg : String)
  | unboundLocal
  deriving DecidableEq

inductive ErrKind where
  | valueErrorKind
  | typeErrorKind
  | configurationErrorKind
  | unboundLocalKind
  deriving DecidableEq

def PyErr.kind : PyErr → ErrKind
  | .valueError _ => .valueErrorKind
  | .typeError _ => .typeErrorKind
  | .unboundLocal => .unboundLocalKind

/-- Kind of the error of a failed computation, `none` on success. -/
def errKindOf {α : Type} : Except PyErr α → Option ErrKind
  | .error e => some e.kind
  | .ok _ => none

/-! ## `_check_low_k` (transfer.py lines 291-315)

    start = 0
    for i in range(len(lnk) - 1):
        if abs((lnT[i + 1] - lnT[i]) / (lnk[i + 1] - lnk[i])) < 0.01:
            start = i
            break
    lnT = lnT[start:-1]
    lnk = lnk[start:-1]
    return lnk, lnT
-/

/-- The loop test of `_check_low_k` at index `i`: the local log-log
slope magnitude between points `i` and `i+1` is below `0.01`. -/
def slopeSmall (lnk lnT : List ℚ) (i : ℕ) : Bool :=
  |(lnT.getD (i + 1) 0 - lnT.getD i 0) / (lnk.getD (i + 1) 0 - lnk.getD i 0)| < (0.01 : ℚ)

/-- The value of `start` after the loop of `_check_low_k`: the first
index of `range(len(lnk) - 1)` whose slope test succeeds, or `0` when
none does. -/
def findStart (lnk lnT : List ℚ) : ℕ :=
  ((List.range (lnk.length - 1)).find? (slopeSmall lnk lnT)).getD 0

/-- `_check_low_k`: trim the points before `start` and slice with the
Python `[start:-1]` slice, which also removes the final element. -/
def check_low_k (lnk lnT : List ℚ) : List ℚ × List ℚ :=
  let start := findStart lnk lnT
  ((lnk.drop start).dropLast, (lnT.drop start).dropLast)

/-! ## `growth` (transfer.py lines 437-458) -/

/-- The `growth` cached property: `tools.growth_factor(z, cosmo)` when
`z > 0`, else `1.0`.  The integrator `tools.growth_factor` and the
cosmology object are parameters, so the definition shows that the
`z = 0` branch never consults them. -/
def growth {C : Type} (growth_factor : ℚ → C → ℚ) (cosmo : C) (z : ℚ) : ℚ :=
  if 0 < z then growth_factor z cosmo else 1

/-! ## numpy helpers -/

/-- `np.linspace a b n` with the default inclusive endpoint:
`a + i * (b - a) / (n - 1)` for `i = 0, …, n-1`. -/
def linspace (a b : ℚ) (n : ℕ) : List ℚ :=
  (List.range n).map (fun i : ℕ => a + (b - a) * (i : ℚ) / ((n : ℚ) - 1))

/-! ## Halofit stage 1: `_get_spec` (transfer.py lines 497-560)

The mass-variance integral

    integrand = delta_k * np.exp(-(k * R) ** 2)
    sigma2 = integ.simps(integrand, np.log(k))

is evaluated through the external Simpson integrator; `sigma2_of`
builds it from an abstract `simps`, and the grid-construction logic is
stated over an arbitrary function `sigma2 : ℚ → ℚ` standing for
`R ↦ σ²(R)`. -/

/-- The map `R ↦ σ²(R)` of `_get_spec`, built from the external
Simpson integrator `simps(y, x)` and the real exponential. -/
def sigma2_of (simps : List ℚ → List ℚ → ℚ) (exp : ℚ → ℚ)
    (lnk delta_k : List ℚ) (R : ℚ) : ℚ :=
  simps ((lnk.zip delta_k).map (fun p => exp p.2 * exp (-(exp p.1 * R) ^ 2))) lnk

/-- The candidate radii of the extended search branch of `_get_spec`. -/
def candidateRadii : List ℚ := [0.0001, 0.001, 0.01, 0.1, 1, 10, 100, 1000]

/-- The search loop of `_get_spec`:

    for r in [0.0001, ..., 1000.0]:
        lnsig1 = np.log(sigma2)          # f r
        if lnsig1 < 0:
            lnsig1 = lnsig_old           # UnboundLocalError on 1st pass
            break
        lnsig_old = copy.copy(lnsig1)

The accumulator is the current value of `lnsig_old`, `none` before its
first assignment; reading it unassigned is the Python
`UnboundLocalError`.  The returned value is `lnsig1` after the loop. -/
def candLoop (f : ℚ → ℚ) : List ℚ → Option ℚ → Except PyErr ℚ
  | [], old =>
    match old with
    | some v => .ok v
    | none => .error .unboundLocal
  | r :: rest, old =>
    if f r < 0 then
      match old with
      | some v => .ok v
      | none => .error .unboundLocal
    else candLoop f rest (some (f r))

/-- The `lnr` grid that `_get_spec` builds the `lnsig` spline on:
a 500-point `linspace` over `[log 0.1, log 10]` when
`0.6 < sigma_8 < 1.0`, otherwise the candidate search followed by a
500-point `linspace` over `[log 0.01, log (10 * lnsig1)]`. -/
def get_spec_lnr (log : ℚ → ℚ) (sigma2 : ℚ → ℚ) (sigma_8 : ℚ) :
    Except PyErr (List ℚ) :=
  if sigma_8 < 1 ∧ 0.6 < sigma_8 then
    .ok (linspace (log 0.1) (log 10) 500)
  else
    match candLoop (fun r => log (sigma2 r)) candidateRadii none with
    | .error e => .error e
    | .ok lnsig1 => .ok (linspace (log 0.01) (log (10 * lnsig1)) 500)

/-- The `lnsig` samples on a grid `lnr`:
`lnsig[i] = np.log(sigma2(np.exp(lnr[i])))`. -/
def get_spec_lnsig (exp log : ℚ → ℚ) (sigma2 : ℚ → ℚ) (lnr : List ℚ) : List ℚ :=
  lnr.map (fun r => log (sigma2 (exp r)))

/-- `rknl` of `_get_spec`: invert the degree-5 spline
`r_of_sig = spline(lnsig[::-1], lnr[::-1], k=5)` at `0` and take
`1 / exp(·)`.  `splineEval deg xs ys t` stands for the external scipy
`InterpolatedUnivariateSpline(xs, ys, k=deg)(t)`. -/
def get_spec_rknl (exp log : ℚ → ℚ) (sigma2 : ℚ → ℚ)
    (splineEval : ℕ → List ℚ → List ℚ → ℚ → ℚ) (sigma_8 : ℚ) :
    Except PyErr ℚ :=
  match get_spec_lnr log sigma2 sigma_8 with
  | .error e => .error e
  | .ok lnr =>
    let lnsig := get_spec_lnsig exp log sigma2 lnr
    .ok (1 / exp (splineEval 5 lnsig.reverse lnr.reverse 0))

/-! ## Halofit stage 2: `_halofit` (transfer.py lines 562-613)

For a single wavenumber `k` and linear dimensionless power `plin`, the
fitting formula is a pointwise expression in `(k, plin)` and the scalar
shape/cosmology parameters.  `rpow b e` stands for the real power
`b ** e` (numpy `10 ** x`, `y ** f2`, ...); the integer reciprocal
powers `y ** (-1)` and `y ** (-2)` are exact rational operations.
`omegam` and `omegav` are the redshifted density fractions computed
through the external cosmolopy helpers, `omegam0` the present-day
matter fraction `self.cosmo.omegam` used in the neutrino correction. -/

def halofit_pnl (rpow : ℚ → ℚ → ℚ) (exp : ℚ → ℚ)
    (omegam omegav w fnu omegam0 neff rncur rknl : ℚ) (k plin : ℚ) : ℚ :=
  let a := rpow 10 (1.5222 + 2.8553 * neff + 2.3706 * neff ^ 2 +
    0.9903 * neff ^ 3 + 0.2250 * neff ^ 4 +
    -0.6038 * rncur + 0.1749 * omegav * (1 + w))
  let b := rpow 10 (-0.5642 + 0.5864 * neff + 0.5716 * neff ^ 2 +
    -1.5474 * rncur + 0.2279 * omegav * (1 + w))
  let c := rpow 10 (0.3698 + 2.0404 * neff + 0.8161 * neff ^ 2 + 0.5869 * rncur)
  let gam := 0.1971 - 0.0843 * neff + 0.8460 * rncur
  let alpha := |6.0835 + 1.3373 * neff - 0.1959 * neff ^ 2 + -5.5274 * rncur|
  let beta := 2.0379 - 0.7354 * neff + 0.3157 * neff ^ 2 +
    1.2490 * neff ^ 3 + 0.3980 * neff ^ 4 - 0.1682 * rncur +
    fnu * (1.081 + 0.395 * neff ^ 2)
  let xmu := (0 : ℚ)
  let xnu := rpow 10 (5.2105 + 3.6902 * neff)
  let fs : ℚ × ℚ × ℚ :=
    if |1 - omegam| > 0.01 then
      let f1a := rpow omegam (-0.0732)
      let f2a := rpow omegam (-0.1423)
      let f3a := rpow omegam 0.0725
      let f1b := rpow omegam (-0.0307)
      let f2b := rpow omegam (-0.0585)
      let f3b := rpow omegam 0.0743
      let frac := omegav / (1 - omegam)
      (frac * f1b + (1 - frac) * f1a,
       frac * f2b + (1 - frac) * f2a,
       frac * f3b + (1 - frac) * f3a)
    else (1, 1, 1)
  let f1 := fs.1
  let f2 := fs.2.1
  let f3 := fs.2.2
  let y := k / rknl
  let ph0 := a * rpow y (f1 * 3) / (1 + b * rpow y f2 + rpow (f3 * c * y) (3 - gam))
  let ph := ph0 / (1 + xmu * (1 / y) + xnu * (1 / y ^ 2)) *
    (1 + fnu * (0.977 - 18.015 * (omegam0 - 0.3)))
  let plinaa := plin * (1 + fnu * 47.48 * k ^ 2 / (1 + 1.5 * k ^ 2))
  let pq := plin * rpow (1 + plinaa) beta / (1 + plinaa * alpha) *
    exp (-y / 4 - y ^ 2 / 8)
  pq + ph

/-! ## `nonlinear_delta_k` (transfer.py lines 615-628)

    mask = np.exp(self.lnk) > 0.005
    plin = np.exp(self.delta_k)
    k = np.exp(self.lnk[mask])
    pnl = self._halofit(k, rneff, rncur, rknl, plin[mask])
    nonlinear_delta_k = np.exp(self.delta_k)
    nonlinear_delta_k[mask] = pnl
    nonlinear_delta_k = np.log(nonlinear_delta_k)

Since `_halofit` is pointwise in `(k, plin)`, masking, applying it and
writing the result back is, entry by entry, the conditional below.
The shape scalars `rneff, rncur, rknl` are the values produced by
`_get_spec` (whose grid stage is modelled above); they enter the
fitting formula only as scalars. -/

def nonlinear_delta_k (exp log : ℚ → ℚ) (rpow : ℚ → ℚ → ℚ)
    (omegam omegav w fnu omegam0 rneff rncur rknl : ℚ)
    (lnk delta_k : List ℚ) : List ℚ :=
  (lnk.zip delta_k).map (fun p =>
    if 0.005 < exp p.1 then
      log (halofit_pnl rpow exp omegam omegav w fnu omegam0 rneff rncur rknl
        (exp p.1) (exp p.2))
    else log (exp p.2))

/-! ## Cached quantities and the dependency graph

The class stores each derived quantity through the decorators of the
(external to `src/`) `_cache` module.  The decorator arguments in
`transfer.py` give the dependency edges:

  `@cached_property("_unnormalised_lnT")  lnk`
  `@cached_property("_unnormalised_lnP", "_lnT_cdm")  _unnormalised_lnT`
  `@cached_property("_lnP_cdm_0")  _unnormalised_lnP`
  `@cached_property("_lnP_0")  _lnP_cdm_0`
  `@cached_property("transfer")  _lnT_cdm`
  `@cached_property("power")  _lnP_0`
  `@cached_property("power")  growth`
  `@cached_property("delta_k")  power`
  `@cached_property()  transfer`
  `@cached_property("nonlinear_delta_k")  delta_k`
  `@cached_property("nonlinear_power")  nonlinear_delta_k`
  `@cached_property()  nonlinear_power`
-/

inductive CacheName where
  | lnk
  | unnormalised_lnT
  | unnormalised_lnP
  | lnP_cdm_0
  | lnT_cdm
  | lnP_0
  | growth
  | power
  | transfer
  | delta_k
  | nonlinear_delta_k
  | nonlinear_power
  deriving DecidableEq

/-- Direct dependents of each cached quantity, read off the
`cached_property` decorator arguments listed above. -/
def children : CacheName → List CacheName
  | .lnk => [.unnormalised_lnT]
  | .unnormalised_lnT => [.unnormalised_lnP, .lnT_cdm]
  | .unnormalised_lnP => [.lnP_cdm_0]
  | .lnP_cdm_0 => [.lnP_0]
  | .lnT_cdm => [.transfer]
  | .lnP_0 => [.power]
  | .growth => [.power]
  | .power => [.delta_k]
  | .transfer => []
  | .delta_k => [.nonlinear_delta_k]
  | .nonlinear_delta_k => [.nonlinear_power]
  | .nonlinear_power => []

/-- Quantities reachable from `c` along dependency edges within `fuel`
steps (the graph has depth below 12, so `fuel = 12` reaches all). -/
def reach : ℕ → CacheName → List CacheName
  | 0, c => [c]
  | fuel + 1, c => c :: ((children c).map (reach fuel)).flatten

/-- Modelled from the spec: deleting a cached quantity through the
missing `_cache` module removes it together with its transitively
dependent quantities (spec section 4.5: on a parameter update,
invalidate exactly the transitively dependent cached quantities,
leaving independent ones intact).  Deleting an absent entry is a
no-op, matching the `try: del ... except AttributeError: pass` idiom
of `update()`. -/
def invalidate {V : Type} (caches : CacheName → Option V)
    (roots : List CacheName) : CacheName → Option V :=
  fun c => if roots.any (fun r => decide (c ∈ reach 12 r)) then none else caches c

/-! ## Parameter state -/

/-- Numeric cosmology parameters that `update()` recognises
(`Transfer._cp`, omitting the non-numeric `force_flat` and
`default`). -/
inductive CosmoParam where
  | sigma_8
  | n
  | w
  | cs2_lam
  | t_cmb
  | y_he
  | N_nu
  | omegan
  | H0
  | h
  | omegab
  | omegac
  | omegav
  | omegab_h2
  | omegac_h2
  deriving DecidableEq

/-- A Python value as it arrives through a keyword argument of the
modelled setters: a number or a string.  (`wdm_mass` additionally
accepts Python `None` through an `Option`.) -/
inductive PyVal where
  | num (q : ℚ)
  | str (s : String)
  deriving DecidableEq

/-- Python `==` on the modelled values. -/
def pyEqB : PyVal → PyVal → Bool
  | .num a, .num b => a == b
  | .str a, .str b => a == b
  | _, _ => false

/-- The settable input parameters of the class. -/
structure Params where
  lnk_min : ℚ
  lnk_max : ℚ
  dlnk : ℚ
  z : ℚ
  wdm_mass : Option ℚ
  transfer_fit : PyVal
  cosmo : CosmoParam → ℚ
  camb : String → PyVal

/-- The whole mutable state of a `Transfer` instance: its input
parameters and the lazily cached derived quantities (`none` when not
currently cached).  `V` is the type of a cached value. -/
structure State (V : Type) where
  params : Params
  caches : CacheName → Option V

/-! ## Python `float()` conversion

`float()` is a consumed interface of the Python runtime: on a number
it succeeds, on a string it succeeds exactly when the string parses as
a number (`parse` abstracts the numeric grammar), and the failure on a
non-numeric string is a `ValueError`. -/

def floatConv (parse : String → Option ℚ) : PyVal → Except PyErr ℚ
  | .num q => .ok q
  | .str s =>
    match parse s with
    | some q => .ok q
    | none => .error (.valueError "could not convert string to float")

/-! ## The validated property setters (transfer.py lines 241-282)

`@set_property(deps...)` (from the missing `_cache` module) stores the
value returned by the decorated body and then deletes the listed
cached quantities; since the body computes the value to store, an
exception inside the body precedes any assignment or invalidation, so
an error leaves the state untouched.  Each setter below returns the
raised error or the successor state. -/

/-- The `z` setter: float conversion (re-raising `ValueError`), the
`val < 0` check, then storage with invalidation of `growth`. -/
def setZ {V : Type} (parse : String → Option ℚ) (s : State V) (v : PyVal) :
    Except PyErr (State V) :=
  match floatConv parse v with
  | .error _ => .error (.valueError "z must be a number")
  | .ok val =>
    if val < 0 then .error (.valueError "z must be > 0")
    else .ok { s with
      params := { s.params with z := val },
      caches := invalidate s.caches [.growth] }

/-- The `wdm_mass` setter: `None` is stored as-is, otherwise float
conversion, the `val <= 0` check, then storage with invalidation of
`_lnP_0` and `transfer`. -/
def setWdm {V : Type} (parse : String → Option ℚ) (s : State V)
    (v : Option PyVal) : Except PyErr (State V) :=
  match v with
  | none => .ok { s with
      params := { s.params with wdm_mass := none },
      caches := invalidate s.caches [.lnP_0, .transfer] }
  | some pv =>
    match floatConv parse pv with
    | .error _ => .error (.valueError "wdm_mass must be a number")
    | .ok val =>
      if val ≤ 0 then .error (.valueError "wdm_mass must be > 0")
      else .ok { s with
        params := { s.params with wdm_mass := some val },
        caches := invalidate s.caches [.lnP_0, .transfer] }

/-- The `transfer_fit` setter: raises `ValueError` when pycamb is not
importable and the value is the string `"CAMB"`, otherwise stores the
value and invalidates `_unnormalised_lnT`. -/
def set_transfer_fit {V : Type} (havePycamb : Bool) (s : State V) (v : PyVal) :
    Except PyErr (State V) :=
  if havePycamb = false ∧ pyEqB v (.str "CAMB") = true then
    .error (.valueError "You cannot use the CAMB transfer since pycamb is not installed")
  else .ok { s with
    params := { s.params with transfer_fit := v },
    caches := invalidate s.caches [.unnormalised_lnT] }

/-- The `lnk_min`, `lnk_max` and `dlnk` setters: no validation, store
the (numeric) value and invalidate `lnk`. -/
def setLnkParam {V : Type} (s : State V) (which : ℕ) (val : ℚ) : State V :=
  { s with
    params :=
      if which = 0 then { s.params with lnk_min := val }
      else if which = 1 then { s.params with lnk_max := val }
      else { s.params with dlnk := val },
    caches := invalidate s.caches [.lnk] }

/-! ## `update()` (transfer.py lines 177-238)

`update()` splits its keyword arguments into cosmology parameters
(keys of `Transfer._cp`) and the rest; the two disjoint single-keyword
paths are modelled by `updateCosmo` and `updateKw`. -/

/-- The cached quantities `update()` deletes directly for a changed
cosmology parameter: `_unnormalised_lnP` for `n`, `_lnP_cdm_0` and
`_lnT_cdm` for `sigma_8`, `_unnormalised_lnT` for the density and
Hubble parameters, nothing for the others. -/
def cosmoDels : CosmoParam → List CacheName
  | .n => [.unnormalised_lnP]
  | .sigma_8 => [.lnP_cdm_0, .lnT_cdm]
  | .omegab => [.unnormalised_lnT]
  | .omegac => [.unnormalised_lnT]
  | .h => [.unnormalised_lnT]
  | .H0 => [.unnormalised_lnT]
  | .omegab_h2 => [.unnormalised_lnT]
  | .omegac_h2 => [.unnormalised_lnT]
  | _ => []

/-- `update()` restricted to a single cosmology keyword `p := v`:
the value is stored and its `cosmoDels` are invalidated only when it
differs from the current value (`true_cp`); the trailing
`del self.growth` runs for `omegab`, `omegac`, `omegav` at `z > 0`
whether or not the value changed, because that test looks at `cp`,
not `true_cp`. -/
def updateCosmo {V : Type} (s : State V) (p : CosmoParam) (v : ℚ) : State V :=
  let s1 :=
    if v = s.params.cosmo p then s
    else
      { s with
        params := { s.params with
          cosmo := fun q => if q = p then v else s.params.cosmo q },
        caches := invalidate s.caches (cosmoDels p) }
  if (p = .omegab ∨ p = .omegac ∨ p = .omegav) ∧ 0 < s.params.z then
    { s1 with caches := invalidate s1.caches [.growth] }
  else s1

/-- The CAMB option keys of `self._camb_options`. -/
def cambOptionNames : List String :=
  ["Scalar_initial_condition", "scalar_amp", "lAccuracyBoost",
   "AccuracyBoost", "w_perturb", "transfer__k_per_logint",
   "transfer__kmax", "ThreadNum"]

/-- The attributes stored through `set_property`, i.e. the names for
which `"_Transfer__" + key` is in `self.__dict__`. -/
def settableNames : List String :=
  ["lnk_min", "lnk_max", "dlnk", "z", "wdm_mass", "transfer_fit"]

/-- The keys of `Transfer._cp` (handled before the keyword loop). -/
def cosmoNames : List String :=
  ["sigma_8", "n", "w", "cs2_lam", "t_cmb", "y_he", "N_nu",
   "omegan", "H0", "h", "omegab", "omegac", "omegav",
   "omegab_h2", "omegac_h2", "force_flat", "default"]

/-- The warning `update()` prints for an unrecognised keyword. -/
def warningMsg (key : String) : String :=
  "WARNING: " ++ key ++ " is not a valid parameter for the Transfer class"

/-- The current attribute value `getattr(self, key)` for the settable
keys (the default branch is never reached under the settable guard). -/
def getattrP {V : Type} (s : State V) (key : String) : PyVal :=
  if key = "lnk_min" then .num s.params.lnk_min
  else if key = "lnk_max" then .num s.params.lnk_max
  else if key = "dlnk" then .num s.params.dlnk
  else if key = "z" then .num s.params.z
  else if key = "wdm_mass" then
    match s.params.wdm_mass with
    | some q => .num q
    | none => .str "None"
  else if key = "transfer_fit" then s.params.transfer_fit
  else .num 0

/-- `setattr(self, key, val)` for the settable keys, dispatching to the
validated setters. -/
def setattrP {V : Type} (parse : String → Option ℚ) (havePycamb : Bool)
    (s : State V) (key : String) (v : PyVal) : Except PyErr (State V) :=
  if key = "lnk_min" ∨ key = "lnk_max" ∨ key = "dlnk" then
    match floatConv parse v with
    | .error e => .error e
    | .ok val =>
      .ok (setLnkParam s (if key = "lnk_min" then 0 else if key = "lnk_max" then 1 else 2) val)
  else if key = "z" then setZ parse s v
  else if key = "wdm_mass" then setWdm parse s (some v)
  else set_transfer_fit havePycamb s v

/-- `update()` restricted to a single non-cosmology keyword
`key := v`: the CAMB-option branch, the unknown-key warning branch, or
the settable-attribute branch with its value check, followed by the
trailing `growth` deletion when the keyword is `z == 0`. -/
def updateKw {V : Type} (parse : String → Option ℚ) (havePycamb : Bool)
    (s : State V) (key : String) (v : PyVal) :
    Except PyErr (State V × List String) := do
  let res ←
    if key ∈ cambOptionNames then
      if pyEqB (s.params.camb key) v then pure (s, ([] : List String))
      else
        let s1 : State V := { s with
          params := { s.params with
            camb := fun n => if n = key then v else s.params.camb n } }
        if key = "ThreadNum" then pure (s1, ([] : List String))
        else pure ({ s1 with caches := invalidate s1.caches [.unnormalised_lnT] },
          ([] : List String))
    else if key ∉ settableNames then
      pure (s, [warningMsg key])
    else if pyEqB (getattrP s key) v then pure (s, ([] : List String))
    else do
      let s2 ← setattrP parse havePycamb s key v
      pure (s2, ([] : List String))
  if key = "z" ∧ pyEqB v (.num 0) = true then
    pure ({ res.1 with caches := invalidate res.1.caches [.growth] }, res.2)
  else
    pure res

/-! ## `tools.normalize` (called from transfer.py lines 408-424)

Modelled from the spec: the `tools` module is not under `src/`.  Spec
section 4.2: the variance integral at `R = 8` is
`sigma2(R=8) = integral of delta2(k) W2(kR) dlnk` over the
unnormalised spectrum; the normalisation constant is
`(target_sigma_8 / computed_sigma) ** 2`, applied as an additive
offset to the log power.  `quad` abstracts the numeric integration
over the grid, `g` the lnP-independent factor `k^3 W(8k)^2 / (2 pi^2)`
of the integrand at each grid point, so the computed variance is
`quad [g_i * exp lnP_i]`. -/

def mass_variance (quad : List ℚ → ℚ) (exp : ℚ → ℚ)
    (g lnP : List ℚ) : ℚ :=
  quad ((g.zip lnP).map (fun p => p.1 * exp p.2))

/-- Modelled from the spec: `tools.normalize` returns the normalised
log power together with the normalisation constant
`(sigma_8 / sigma) ** 2`, the constant entering the log power as the
additive offset `log` of itself. -/
def normalize (quad : List ℚ → ℚ) (exp log sqrtF : ℚ → ℚ)
    (sigma_8 : ℚ) (g lnP : List ℚ) : List ℚ × ℚ :=
  let sigma := sqrtF (mass_variance quad exp g lnP)
  let normc := (sigma_8 / sigma) ^ 2
  (lnP.map (fun x => x + log normc), normc)

/-! ## Shared helper lemmas -/

/-- Element `i` of a mapped zip, for `i` in range of both lists. -/
theorem getD_zip_map (f : ℚ × ℚ → ℚ) :
    ∀ (l m : List ℚ) (i : ℕ), i < l.length → i < m.length →
      ((l.zip m).map f).getD i 0 = f (l.getD i 0, m.getD i 0) := by
  intro l
  induction l with
  | nil => intro m i hl _; exact absurd hl (by simp)
  | cons a l ih =>
    intro m i hl hm
    cases m with
    | nil => exact absurd hm (by simp)
    | cons b m =>
      cases i with
      | zero => rfl
      | succ i =>
        simpa using ih m i (Nat.lt_of_succ_lt_succ hl) (Nat.lt_of_succ_lt_succ hm)

/-- `find?` over `List.range n` returns the least index satisfying the
predicate. -/
theorem find?_range_eq_some {p : ℕ → Bool} {n i : ℕ} (hi : i < n)
    (hp : p i = true) (hmin : ∀ j, j < i → p j = false) :
    (List.range n).find? p = some i := by
  rw [List.find?_eq_some_iff_getElem]
  refine ⟨hp, i, by simpa using hi, by simp, ?_⟩
  intro j hj
  simp [List.getElem_range, hmin j hj]

/-- `find?` over `List.range n` fails when no index satisfies the
predicate. -/
theorem find?_range_eq_none {p : ℕ → Bool} {n : ℕ}
    (h : ∀ j, j < n → p j = false) : (List.range n).find? p = none := by
  rw [List.find?_eq_none]
  intro x hx
  simp [h x (List.mem_range.mp hx)]

/-! ## Concrete fixtures used by witnesses -/

/-- A concrete parameter record. -/
def params0 : Params where
  lnk_min := 0
  lnk_max := 1
  dlnk := 1
  z := 0
  wdm_mass := none
  transfer_fit := .str "EH"
  cosmo := fun _ => 0
  camb := fun _ => .num 0

/-- A concrete fully-cached state. -/
def state0 : State ℚ := { params := params0, caches := fun _ => some 1 }

/-- A rational stand-in for `exp` paired with `wLog` so that
`wLog (wExp x) = x`. -/
def wExp : ℚ → ℚ := fun x => x + 1

/-- A rational stand-in for `log`, inverse of `wExp`. -/
def wLog : ℚ → ℚ := fun x => x - 1

/-! ## C1 -/

/-- C1: on every grid point, `nonlinear_delta_k` returns the linear
dimensionless log power unchanged when `exp lnk ≤ 0.005`, and the log
of the Halofit fitting-formula value of the linear power when
`exp lnk > 0.005` (`log` being the inverse of `exp`, as the real
functions are). -/
theorem nonlinear_delta_k_threshold (exp log : ℚ → ℚ) (rpow : ℚ → ℚ → ℚ)
    (omegam omegav w fnu omegam0 rneff rncur rknl : ℚ)
    (lnk delta_k : List ℚ) (i : ℕ)
    (hi : i < lnk.length) (him : i < delta_k.length)
    (hlog : ∀ x, log (exp x) = x) :
    (exp (lnk.getD i 0) ≤ 0.005 →
      (nonlinear_delta_k exp log rpow omegam omegav w fnu omegam0 rneff rncur
        rknl lnk delta_k).getD i 0 = delta_k.getD i 0) ∧
    (0.005 < exp (lnk.getD i 0) →
      (nonlinear_delta_k exp log rpow omegam omegav w fnu omegam0 rneff rncur
        rknl lnk delta_k).getD i 0
        = log (halofit_pnl rpow exp omegam omegav w fnu omegam0 rneff rncur rknl
            (exp (lnk.getD i 0)) (exp (delta_k.getD i 0)))) := by
  unfold nonlinear_delta_k
  rw [getD_zip_map _ lnk delta_k i hi him]
  constructor
  · intro h
    simp only [not_lt.mpr h, if_false, hlog]
  · intro h
    simp only [h, if_true]

/-- Witness for C1: a grid point at or below the threshold keeps its
linear value. -/
theorem nonlinear_delta_k_threshold_witness :
    (nonlinear_delta_k wExp wLog (fun _ _ => 0) 0 0 0 0 0 0 0 0
      [-2, 1] [5, 7]).getD 0 0 = 5 := by
  have h := (nonlinear_delta_k_threshold wExp wLog (fun _ _ => 0) 0 0 0 0 0 0 0 0
    [-2, 1] [5, 7] 0 (by decide) (by decide)
    (fun x => by simp [wExp, wLog])).1 (by norm_num [wExp])
  simpa using h

/-! ## C2 -/

/-- C2 counterexample: on a grid whose slopes never drop below `0.01`
the claim demands that nothing is discarded, but `_check_low_k`
always discards the final point through the `[start:-1]` slice. -/
theorem check_low_k_drops_last :
    ((List.range 2).all (fun j => !slopeSmall [0, 1, 2] [0, 1, 2] j)) = true ∧
    check_low_k [0, 1, 2] [0, 1, 2] = ([0, 1], [0, 1]) ∧
    check_low_k [0, 1, 2] [0, 1, 2] ≠ ([0, 1, 2], [0, 1, 2]) := by
  have h0 : slopeSmall [0, 1, 2] [0, 1, 2] 0 = false := by
    norm_num [slopeSmall]
  have h1 : slopeSmall [0, 1, 2] [0, 1, 2] 1 = false := by
    norm_num [slopeSmall]
  have hfind : findStart [0, 1, 2] [0, 1, 2] = 0 := by
    unfold findStart
    rw [show ([0, 1, 2] : List ℚ).length - 1 = 2 by rfl,
      find?_range_eq_none (by intro j hj; interval_cases j <;> assumption)]
    rfl
  refine ⟨?_, ?_, ?_⟩
  · rw [show List.range 2 = [0, 1] by rfl]
    simp [h0, h1]
  · simp [check_low_k, hfind]
  · simp [check_low_k, hfind]

/-- C2 (amended): `_check_low_k` discards exactly the points before
the first index whose local log-log slope magnitude drops below
`0.01` (start index `0` when no such index exists) and additionally
always discards the final remaining point; the surviving points are
returned otherwise unchanged. -/
theorem check_low_k_spec (lnk lnT : List ℚ) :
    (∀ i, i < lnk.length - 1 → slopeSmall lnk lnT i = true →
      (∀ j, j < i → slopeSmall lnk lnT j = false) →
      check_low_k lnk lnT = ((lnk.drop i).dropLast, (lnT.drop i).dropLast)) ∧
    ((∀ j, j < lnk.length - 1 → slopeSmall lnk lnT j = false) →
      check_low_k lnk lnT = (lnk.dropLast, lnT.dropLast)) := by
  constructor
  · intro i hi hp hmin
    unfold check_low_k findStart
    rw [find?_range_eq_some hi hp hmin]
    rfl
  · intro h
    unfold check_low_k findStart
    rw [find?_range_eq_none h]
    simp

/-- Witness for C2: the first slope of this grid is `0`, so trimming
starts at index `0` and only the final point is discarded. -/
theorem check_low_k_spec_witness :
    check_low_k [0, 1, 2, 3] [0, 0, 1, 2] = ([0, 1, 2], [0, 0, 1]) := by
  have h := (check_low_k_spec [0, 1, 2, 3] [0, 0, 1, 2]).1 0 (by decide)
    (by norm_num [slopeSmall]) (fun j hj => absurd hj (by omega))
  simpa using h

/-! ## C4 -/

/-- C4: at `z = 0` the growth factor is exactly `1`, and the result
does not depend on the growth integrator or on the cosmology, so the
short-circuit branch performs no integration. -/
theorem growth_at_z_zero {C C' : Type} (gf : ℚ → C → ℚ) (gf' : ℚ → C' → ℚ)
    (c : C) (c' : C') :
    growth gf c 0 = 1 ∧ growth gf c 0 = growth gf' c' 0 := by
  constructor <;> simp [growth]

/-! ## C7 -/

/-- C7 (amended): with pycamb unavailable, setting `transfer_fit` to
`"CAMB"` raises `ValueError` inside the setter itself, i.e. at
configuration time; the setter returns no successor state, so every
previously cached quantity is untouched. -/
theorem transfer_fit_camb_error {V : Type} (s : State V) :
    set_transfer_fit false s (.str "CAMB")
      = .error (.valueError
          "You cannot use the CAMB transfer since pycamb is not installed") := by
  unfold set_transfer_fit
  rw [if_pos ⟨rfl, rfl⟩]

/-- C7 counterexample: the exception raised when selecting `"CAMB"`
without pycamb is a `ValueError`; it is not of the
`ConfigurationError` kind the claim names (the code defines no such
class). -/
theorem transfer_fit_camb_not_configuration_error :
    errKindOf (set_transfer_fit false state0 (.str "CAMB"))
        = some ErrKind.valueErrorKind ∧
    errKindOf (set_transfer_fit false state0 (.str "CAMB"))
        ≠ some ErrKind.configurationErrorKind :=
  ⟨by decide, by decide⟩

/-! ## C9 -/

/-- C9: in the extended-search branch (`sigma_8` outside `(0.6, 1)`),
when the log-variance of the very first candidate radius `1e-4` is
already negative, the loop reads `lnsig_old` before any assignment
and evaluation fails with the unbound-local error, not with a
reported convergence error. -/
theorem get_spec_unbound_local (log sigma2 : ℚ → ℚ) (sigma_8 : ℚ)
    (hbranch : ¬(sigma_8 < 1 ∧ 0.6 < sigma_8))
    (hneg : log (sigma2 0.0001) < 0) :
    get_spec_lnr log sigma2 sigma_8 = .error .unboundLocal := by
  unfold get_spec_lnr candidateRadii
  rw [if_neg hbranch]
  unfold candLoop
  rw [if_pos hneg]

/-- Witness for C9: a variance already below `1` at the smallest
candidate radius trips the unbound-local failure. -/
theorem get_spec_unbound_local_witness :
    get_spec_lnr (fun _ => -1) (fun _ => 0) 2 = .error .unboundLocal :=
  get_spec_unbound_local (fun _ => -1) (fun _ => 0) 2 (by decide) (by decide)

/-! ## C6 -/

/-- The caches that depend on the normalisation: everything downstream
of `_lnP_cdm_0` or `_lnT_cdm`. -/
def normDependent : List CacheName :=
  [.lnP_cdm_0, .lnT_cdm, .lnP_0, .power, .transfer, .delta_k,
   .nonlinear_delta_k, .nonlinear_power]

/-- An entry not reachable from any invalidation root is untouched. -/
theorem invalidate_not_mem {V : Type} (caches : CacheName → Option V)
    (roots : List CacheName) (c : CacheName)
    (h : (roots.any (fun r => decide (c ∈ reach 12 r))) = false) :
    invalidate caches roots c = caches c := by
  simp [invalidate, h]

/-- An entry reachable from an invalidation root is removed. -/
theorem invalidate_mem {V : Type} (caches : CacheName → Option V)
    (roots : List CacheName) (c : CacheName)
    (h : (roots.any (fun r => decide (c ∈ reach 12 r))) = true) :
    invalidate caches roots c = none := by
  simp [invalidate, h]

/-- C6: an `update()` that changes only `sigma_8` keeps the cached
`lnk` grid, the unnormalised transfer function, the unnormalised
power and the growth factor exactly as they were (still cached, so
not recomputed), invalidates exactly the normalisation-dependent
cached quantities, and stores the new `sigma_8`. -/
theorem update_sigma8_frame {V : Type} (s : State V) (v : ℚ)
    (hv : v ≠ s.params.cosmo .sigma_8) :
    (updateCosmo s .sigma_8 v).caches .lnk = s.caches .lnk ∧
    (updateCosmo s .sigma_8 v).caches .unnormalised_lnT
      = s.caches .unnormalised_lnT ∧
    (updateCosmo s .sigma_8 v).caches .unnormalised_lnP
      = s.caches .unnormalised_lnP ∧
    (updateCosmo s .sigma_8 v).caches .growth = s.caches .growth ∧
    (∀ c ∈ normDependent, (updateCosmo s .sigma_8 v).caches c = none) ∧
    (∀ c ∉ normDependent, (updateCosmo s .sigma_8 v).caches c = s.caches c) ∧
    (updateCosmo s .sigma_8 v).params.cosmo .sigma_8 = v := by
  have heq : (updateCosmo s .sigma_8 v).caches
      = invalidate s.caches [.lnP_cdm_0, .lnT_cdm] := by
    unfold updateCosmo
    rw [if_neg hv, if_neg (by simp)]
    rfl
  have hcos : (updateCosmo s .sigma_8 v).params.cosmo .sigma_8 = v := by
    unfold updateCosmo
    rw [if_neg hv, if_neg (by simp)]
    simp
  refine ⟨?_, ?_, ?_, ?_, ?_, ?_, hcos⟩
  · rw [heq]; exact invalidate_not_mem _ _ _ (by decide)
  · rw [heq]; exact invalidate_not_mem _ _ _ (by decide)
  · rw [heq]; exact invalidate_not_mem _ _ _ (by decide)
  · rw [heq]; exact invalidate_not_mem _ _ _ (by decide)
  · intro c hc
    rw [heq]
    refine invalidate_mem _ _ _ ?_
    fin_cases hc <;> decide
  · intro c hc
    rw [heq]
    cases c <;>
      first
        | exact absurd (by decide) hc
        | exact invalidate_not_mem _ _ _ (by decide)

/-- Witness for C6: on a concrete fully-cached state, updating
`sigma_8` drops the normalised CDM power cache but keeps the cached
grid value. -/
theorem update_sigma8_frame_witness :
    (updateCosmo state0 .sigma_8 1).caches .lnP_cdm_0 = none ∧
    (updateCosmo state0 .sigma_8 1).caches .lnk = some 1 := by
  have h := update_sigma8_frame state0 1 (by decide)
  exact ⟨h.2.2.2.2.1 .lnP_cdm_0 (by decide), (h.1).trans rfl⟩

/-! ## C8 -/

/-- C8: the `z` and `wdm_mass` setters raise `ValueError` inside the
setter itself — for a non-numeric string, a negative `z`, or a
non-positive `wdm_mass` — before any value is stored or any cache
invalidated (the setter returns no successor state), and the error
also surfaces unchanged when the assignment goes through
`update()`. -/
theorem setter_validation {V : Type} (parse : String → Option ℚ)
    (havePycamb : Bool) (s : State V) (t : String) (q u : ℚ) :
    (parse t = none →
      setZ parse s (.str t) = .error (.valueError "z must be a number")) ∧
    (q < 0 →
      setZ parse s (.num q) = .error (.valueError "z must be > 0")) ∧
    (parse t = none →
      setWdm parse s (some (.str t))
        = .error (.valueError "wdm_mass must be a number")) ∧
    (u ≤ 0 →
      setWdm parse s (some (.num u))
        = .error (.valueError "wdm_mass must be > 0")) ∧
    (parse t = none →
      updateKw parse havePycamb s "z" (.str t)
        = .error (.valueError "z must be a number")) := by
  refine ⟨?_, ?_, ?_, ?_, ?_⟩
  · intro h
    simp [setZ, floatConv, h]
  · intro h
    simp [setZ, floatConv, h]
  · intro h
    simp [setWdm, floatConv, h]
  · intro h
    simp [setWdm, floatConv, h]
  · intro h
    simp +decide [updateKw, setattrP, setZ, floatConv, h, getattrP, pyEqB,
      cambOptionNames, settableNames]

/-- Witness for C8: a concrete unparsable string and a concrete
non-positive mass are both rejected by the setters. -/
theorem setter_validation_witness :
    setZ (fun _ => none) state0 (.str "abc")
      = .error (.valueError "z must be a number") ∧
    setWdm (fun _ => none) state0 (some (.num 0))
      = .error (.valueError "wdm_mass must be > 0") :=
  ⟨(setter_validation (fun _ => none) false state0 "abc" 0 0).1 rfl,
   (setter_validation (fun _ => none) false state0 "abc" 0 0).2.2.2.1 le_rfl⟩

/-! ## C10 -/

/-- C10: a single `update()` keyword that is not a cosmology
parameter, not a CAMB option and not a settable attribute never
raises: it returns successfully with the state completely unchanged
and only the printed warning as output. -/
theorem update_unknown_key {V : Type} (parse : String → Option ℚ)
    (havePycamb : Bool) (s : State V) (key : String) (v : PyVal)
    (_h1 : key ∉ cosmoNames) (h2 : key ∉ cambOptionNames)
    (h3 : key ∉ settableNames) :
    updateKw parse havePycamb s key v = .ok (s, [warningMsg key]) := by
  have hz : key ≠ "z" := by
    intro h
    exact h3 (h ▸ (by decide : ("z" : String) ∈ settableNames))
  unfold updateKw
  rw [if_neg h2, if_pos h3]
  simp only [pure_bind]
  rw [if_neg (fun hc => hz hc.1)]
  rfl

/-- Witness for C10: the unknown keyword `"foo"` produces only the
warning, on a concrete state. -/
theorem update_unknown_key_witness :
    updateKw (fun _ => none) false state0 "foo" (.num 0)
      = .ok (state0, [warningMsg "foo"]) :=
  update_unknown_key (fun _ => none) false state0 "foo" (.num 0)
    (by decide) (by decide) (by decide)

/-! ## C5 -/

/-- A uniform additive offset inside `exp` factors out of the sampled
integrand as the multiplicative constant. -/
theorem map_mul_of_exp_add (exp : ℚ → ℚ) (c o : ℚ)
    (hexp : ∀ x, exp (x + o) = c * exp x) (g lnP : List ℚ) :
    (g.zip (lnP.map (fun x => x + o))).map (fun p => p.1 * exp p.2)
      = ((g.zip lnP).map (fun p => p.1 * exp p.2)).map (fun x => c * x) := by
  induction g generalizing lnP with
  | nil => rfl
  | cons a g ih =>
    cases lnP with
    | nil => rfl
    | cons b lnP =>
      simp only [List.map_cons, List.zip_cons_cons, ih lnP]
      rw [hexp b]
      congr 1
      ring

/-- C5: normalising a spectrum to a target `sigma_8` and recomputing
the 8 Mpc/h top-hat variance from the normalised spectrum returns
exactly `sigma_8` squared, hence the recomputed sigma is exactly the
target and in particular within `1e-6` relative error.  The
hypotheses are the facts the real functions satisfy: the integral is
homogeneous, `exp` turns the additive offset `log` of the positive
normalisation constant into the multiplicative constant, and `sqrtF`
squares back to its argument. -/
theorem normalize_roundtrip (quad : List ℚ → ℚ) (exp log sqrtF : ℚ → ℚ)
    (sigma_8 : ℚ) (g lnP : List ℚ)
    (hquad : ∀ (c : ℚ) (l : List ℚ),
      quad (l.map (fun x => c * x)) = c * quad l)
    (hexp : ∀ x, exp (x + log ((normalize quad exp log sqrtF sigma_8 g lnP).2))
      = (normalize quad exp log sqrtF sigma_8 g lnP).2 * exp x)
    (hsqrtV : sqrtF (mass_variance quad exp g lnP) ^ 2
      = mass_variance quad exp g lnP)
    (hV0 : sqrtF (mass_variance quad exp g lnP) ≠ 0)
    (hsqrt8 : sqrtF (sigma_8 ^ 2) = sigma_8) :
    mass_variance quad exp g (normalize quad exp log sqrtF sigma_8 g lnP).1
      = sigma_8 ^ 2 ∧
    sqrtF (mass_variance quad exp g
      (normalize quad exp log sqrtF sigma_8 g lnP).1) = sigma_8 ∧
    |sqrtF (mass_variance quad exp g
      (normalize quad exp log sqrtF sigma_8 g lnP).1) - sigma_8|
      ≤ 1 / 1000000 * |sigma_8| := by
  have hnc : (normalize quad exp log sqrtF sigma_8 g lnP).2
      = (sigma_8 / sqrtF (mass_variance quad exp g lnP)) ^ 2 := rfl
  have h1 : (normalize quad exp log sqrtF sigma_8 g lnP).1
      = lnP.map (fun x =>
          x + log ((normalize quad exp log sqrtF sigma_8 g lnP).2)) := rfl
  have hVne : mass_variance quad exp g lnP ≠ 0 := by
    intro h0
    apply hV0
    rw [h0]
    have h2 := hsqrtV
    rw [h0] at h2
    exact (pow_eq_zero_iff (two_ne_zero)).mp h2
  have key : mass_variance quad exp g
      (normalize quad exp log sqrtF sigma_8 g lnP).1
      = (normalize quad exp log sqrtF sigma_8 g lnP).2
        * mass_variance quad exp g lnP := by
    rw [h1]
    unfold mass_variance
    rw [map_mul_of_exp_add exp _ _ hexp g lnP]
    exact hquad _ _
  have hmain : mass_variance quad exp g
      (normalize quad exp log sqrtF sigma_8 g lnP).1 = sigma_8 ^ 2 := by
    rw [key, hnc, div_pow, hsqrtV, div_mul_cancel₀ _ hVne]
  refine ⟨hmain, ?_, ?_⟩
  · rw [hmain, hsqrt8]
  · rw [hmain, hsqrt8]
    simp only [sub_self, abs_zero]
    positivity

/-- Integration stand-in for the C5 witness. -/
def wQuad : List ℚ → ℚ := fun l => l.headD 0

/-- Exponential stand-in for the C5 witness. -/
def wExpC : ℚ → ℚ := fun x => if x = 0 then 4 else 1

/-- Logarithm stand-in for the C5 witness. -/
def wLogC : ℚ → ℚ := fun _ => 0

/-- Square-root stand-in for the C5 witness. -/
def wSqrt : ℚ → ℚ := fun v => if v = 4 then 2 else v

/-- Witness for C5: on a concrete one-point grid the round trip
returns the target `sigma_8 = 2` exactly. -/
theorem normalize_roundtrip_witness :
    wSqrt (mass_variance wQuad wExpC [1]
      (normalize wQuad wExpC wLogC wSqrt 2 [1] [0]).1) = 2 :=
  (normalize_roundtrip wQuad wExpC wLogC wSqrt 2 [1] [0]
    (by intro c l; cases l <;> simp [wQuad])
    (by
      intro x
      have hnc1 : (normalize wQuad wExpC wLogC wSqrt 2 [1] [0]).2 = 1 := by
        norm_num [normalize, mass_variance, wQuad, wExpC, wSqrt]
      rw [hnc1]
      simp [wLogC])
    (by norm_num [mass_variance, wQuad, wExpC, wSqrt])
    (by norm_num [mass_variance, wQuad, wExpC, wSqrt])
    (by norm_num [wSqrt])).2.1

/-! ## C3 -/

/-- Every `linspace` point is at most the right endpoint. -/
theorem linspace_le {a b : ℚ} (hab : a ≤ b) (n : ℕ) :
    ∀ x ∈ linspace a b n, x ≤ b := by
  intro x hx
  rw [linspace, List.mem_map] at hx
  obtain ⟨i, hi, rfl⟩ := hx
  rw [List.mem_range] at hi
  have hin : i < n := hi
  rcases Nat.lt_or_ge n 2 with hn | hn
  · interval_cases n
    · simp at hi
    · interval_cases i
      simp [hab]
  · have hd : (0 : ℚ) < (n : ℚ) - 1 := by
      have h2 : (2 : ℚ) ≤ (n : ℚ) := by exact_mod_cast hn
      linarith
    have hi' : (i : ℚ) ≤ (n : ℚ) - 1 := by
      have hc : (i : ℚ) + 1 ≤ (n : ℚ) := by exact_mod_cast hin
      linarith
    have h0 : (0 : ℚ) ≤ b - a := sub_nonneg.mpr hab
    have hfrac : (b - a) * i / ((n : ℚ) - 1) ≤ b - a := by
      rw [div_le_iff₀ hd]
      calc (b - a) * i ≤ (b - a) * ((n : ℚ) - 1) :=
            mul_le_mul_of_nonneg_left hi' h0
        _ = (b - a) * ((n : ℚ) - 1) := rfl
    linarith

/-- The `log` of the C3 failing input (`exp`/`log` stand-ins form an
inverse pair on the relevant range). -/
def cexLog : ℚ → ℚ := fun x => x - 1

/-- The `exp` of the C3 failing input, inverse of `cexLog`. -/
def cexExp : ℚ → ℚ := fun x => x + 1

/-- The variance map of the C3 failing input: `σ²(R) = 1.01` for
`R ≤ 1` and `0.5` beyond, so `ln σ²` crosses `0` between the
candidate radii `1` and `10`. -/
def cexSigma2 : ℚ → ℚ := fun r => if r ≤ 1 then 101 / 100 else 1 / 2

/-- C3: evaluation of the extended-search branch at a failing input.
With `sigma_8 = 2` the search detects the `σ² = 1` crossing between
the candidate radii `1` and `10` (first two conjuncts), but the finer
500-point grid is `linspace (log 0.01) (log (10 * lnsig1)) 500` with
`lnsig1 = ln σ²(1) = 0.01` — a log-variance used as a radius bound —
so every grid point is a radius below `1` and `ln σ²` is strictly
positive on the whole grid: the grid is not built around the crossing
and the `σ² = 1` spline inversion has no crossing inside its data. -/
theorem get_spec_grid_misses_crossing :
    0 < cexLog (cexSigma2 1) ∧
    cexLog (cexSigma2 10) < 0 ∧
    get_spec_lnr cexLog cexSigma2 2
      = .ok (linspace (-99 / 100) (-9 / 10) 500) ∧
    ((linspace (-99 / 100 : ℚ) (-9 / 10) 500).all
      (fun x => decide (cexExp x < 1))) = true ∧
    ((get_spec_lnsig cexExp cexLog cexSigma2
        (linspace (-99 / 100) (-9 / 10) 500)).all
      (fun v => decide (0 < v))) = true := by
  have hgrid : ∀ x ∈ linspace (-99 / 100 : ℚ) (-9 / 10) 500, x ≤ -9 / 10 :=
    linspace_le (by norm_num) 500
  refine ⟨by norm_num [cexLog, cexSigma2], by norm_num [cexLog, cexSigma2],
    ?_, ?_, ?_⟩
  · unfold get_spec_lnr
    rw [if_neg (by norm_num)]
    have hloop : candLoop (fun r => cexLog (cexSigma2 r)) candidateRadii none
        = .ok (1 / 100) := by
      simp only [candidateRadii, candLoop]
      norm_num [cexLog, cexSigma2]
    have ha : cexLog 0.01 = -99 / 100 := by norm_num [cexLog]
    have hb : cexLog (10 * (1 / 100)) = -9 / 10 := by norm_num [cexLog]
    rw [hloop, ha]
    show Except.ok (linspace (-99 / 100) (cexLog (10 * (1 / 100))) 500)
      = Except.ok (linspace (-99 / 100) (-9 / 10) 500)
    rw [hb]
  · rw [List.all_eq_true]
    intro x hx
    rw [decide_eq_true_eq]
    have hxb := hgrid x hx
    unfold cexExp
    linarith
  · rw [List.all_eq_true]
    intro v hv
    unfold get_spec_lnsig at hv
    rcases List.mem_map.mp hv with ⟨x, hx, rfl⟩
    rw [decide_eq_true_eq]
    have hxb := hgrid x hx
    have hle : cexExp x ≤ 1 := by unfold cexExp; linarith
    unfold cexLog cexSigma2
    rw [if_pos hle]
    norm_num

end Hmf
